import Mathlib

/-!
Verification development for the lgtm-gitlab webhook service (src/main.go).

The Go program is shallowly embedded: the persistent bolt bucket is a finite
map from byte-string keys to byte-string values (modelled as
String → Option String), the Go integers are Lean Int (no claim here is
about overflow), strconv.Itoa / strconv.Atoi are modelled by goItoa / goAtoi,
and the failure points of the bolt transaction (Begin, CreateBucketIfNotExists,
Put, Commit) are injected explicitly through a TxFail record so the error
paths of checkLGTMCount are observable.
-/

/-! ### Decimal strings: the model of strconv.Itoa and strconv.Atoi -/

/-- Little-endian digit characters of a natural number, with explicit fuel so
that the definition reduces in the kernel.  `natRevDigits n n` is the full
digit list of `n`, reversed. -/
def natRevDigits (fuel : Nat) (n : Nat) : List Char :=
  match fuel with
  | 0 => []
  | fuel' + 1 => if n = 0 then [] else Nat.digitChar (n % 10) :: natRevDigits fuel' (n / 10)

/-- Decimal rendering of a natural number. -/
def natStr (n : Nat) : String :=
  if n = 0 then "0" else ⟨(natRevDigits n n).reverse⟩

/-- Model of Go strconv.Itoa: decimal rendering of an int, with a leading
minus sign for negatives. -/
def goItoa (i : Int) : String :=
  if i < 0 then "-" ++ natStr (-i).toNat else natStr i.toNat

/-- A decimal digit character. -/
def isDecDigit (c : Char) : Bool :=
  48 ≤ c.toNat && c.toNat ≤ 57

/-- Parse a non-empty all-digit character list as a natural number. -/
def parseDecDigits (l : List Char) : Option Nat :=
  if l.isEmpty then none
  else if l.all isDecDigit then
    some (l.foldl (fun a c => a * 10 + (c.toNat - 48)) 0)
  else none

/-- Sign-then-digits parse on a character list (helper for goAtoi). -/
def goAtoiList : List Char → Option Int
  | [] => none
  | c :: cs =>
    if c = '+' then (parseDecDigits cs).map Int.ofNat
    else if c = '-' then (parseDecDigits cs).map (fun n => -Int.ofNat n)
    else (parseDecDigits (c :: cs)).map Int.ofNat

/-- Model of Go strconv.Atoi (base-10 ParseInt): an optional sign followed by
at least one decimal digit; anything else is an error (none). -/
def goAtoi (s : String) : Option Int :=
  goAtoiList s.data

/-! ### The bolt bucket: a durable map from byte-string keys to byte-string values -/

/-- The contents of the single "lgtm" bucket of the bolt file. -/
def Store : Type := String → Option String

/-- The store before any approval was recorded. -/
def emptyStore : Store := fun _ => none

/-- bucket.Put: set one key to one value. -/
def putStore (st : Store) (key val : String) : Store :=
  fun k => if k = key then some val else st k

/-- Injected outcomes for the four fallible bolt steps of checkLGTMCount:
db.Begin, tx.CreateBucketIfNotExists, bucket.Put and tx.Commit.  `some e`
means that step fails with error message `e`. -/
structure TxFail where
  beginErr : Option String
  bucketErr : Option String
  putErr : Option String
  commitErr : Option String

/-- All four bolt steps succeed. -/
def noFail : TxFail := ⟨none, none, none, none⟩

/-- The mutex events emitted by one call: `true` is mutex.Lock, `false` is
the deferred mutex.Unlock. -/
def LockTrace : Type := List Bool

/-- The observable outcome of one checkLGTMCount call: the two Go return
values, the bucket contents after the call, and the mutex events in order. -/
structure CountResult where
  canMerge : Bool
  err : Option String
  store : Store
  locks : LockTrace

/-- Parsing of a stored count as done by checkLGTMCount: count starts at 0;
if the stored byte string is non-empty it is fed to strconv.Atoi, and an
Atoi error falls back to 0 (logged as a warning). -/
def readStoredCount (st : Store) (key : String) : Int :=
  match st key with
  | none => 0
  | some v =>
    if 0 < v.length then
      match goAtoi v with
      | some n => n
      | none => 0
    else 0

/-- Model of checkLGTMCount (src/main.go lines 246-285).  `threshold` is the
validLGTMCount flag, `iid` is comment.MergeRequest.Iid.  Every path emits
mutex.Lock followed by the deferred mutex.Unlock.  A transaction that does
not reach a successful tx.Commit leaves the durable store unchanged.
Go's % on int is truncated division remainder, i.e. Int.tmod. -/
def checkLGTMCount (f : TxFail) (threshold : Int) (iid : Int) (st : Store) : CountResult :=
  match f.beginErr with
  | some e => ⟨false, some e, st, [true, false]⟩
  | none =>
    match f.bucketErr with
    | some e => ⟨false, some e, st, [true, false]⟩
    | none =>
      let countKey := goItoa iid
      let count := readStoredCount st countKey + 1
      match f.putErr with
      | some e => ⟨false, some e, st, [true, false]⟩
      | none =>
        let checkStatus := Int.tmod count threshold == 0
        match f.commitErr with
        | some e => ⟨checkStatus, some e, st, [true, false]⟩
        | none => ⟨checkStatus, none, putStore st countKey (goItoa count), [true, false]⟩

/-- The store after k successful sequential checkLGTMCount calls for merge
request `m`, starting from the empty store. -/
def seqRun (threshold : Int) (m : Int) : Nat → Store
  | 0 => emptyStore
  | k + 1 => (checkLGTMCount noFail threshold m (seqRun threshold m k)).store

/-! ### Constants of src/main.go -/

/-- const ObjectNote. -/
def ObjectNote : String := "note"

/-- const NoteableTypeMergeRequest. -/
def NoteableTypeMergeRequest : String := "MergeRequest"

/-- const NoteLGTM, the default of the lgtm_note flag. -/
def NoteLGTM : String := "LGTM"

/-- const StatusCanbeMerged. -/
def StatusCanbeMerged : String := "can_be_merged"

/-! ### The inbound comment event -/

/-- The fields of the Comment webhook payload that the program consumes:
ObjectKind, User.Username, ProjectID, ObjectAttributes.Note,
ObjectAttributes.NoteableType, MergeRequest.Iid, MergeRequest.MergeStatus
and MergeRequest.MergeParams.ForceRemoveSourceBranch.  The many remaining
wire fields are never read and are omitted. -/
structure Comment where
  objectKind : String
  username : String
  projectID : Int
  note : String
  noteableType : String
  iid : Int
  mergeStatus : String
  forceRemoveSourceBranch : String
deriving DecidableEq

/-! ### Reviewer policy -/

/-- Model of Conf.getReviewers (src/main.go lines 72-82).  Its two external
effects are parameters: `readFile` is the ioutil.ReadFile outcome on
reviewers.yaml (none = read error, some text = the file's bytes) and
`unmarshal` is yaml.Unmarshal on that text (none = unmarshal error).  The Go
function has three exits: on a read error it returns nil (modelled
some none); on an unmarshal error it calls logrus.Fatalf, so the call never
returns and the process exits (modelled none); on success it returns the
parsed reviewer list (modelled some (some l)). -/
def getReviewers (readFile : Option String) (unmarshal : String → Option (List String)) :
    Option (Option (List String)) :=
  match readFile with
  | none => some none
  | some text =>
    match unmarshal text with
    | none => none
    | some l => some (some l)

/-- The tail of checkReviewers (src/main.go lines 233-243) once getReviewers
has returned: `loaded` is getReviewers' return value, none when it returned
nil (reviewers.yaml could not be read), some l when the yaml file yielded
the list l.  If it returned nil or the list is empty the function returns
true for everybody; otherwise it returns true exactly when some entry equals
the commenter's username byte for byte. -/
def checkLoadedReviewers (loaded : Option (List String)) (c : Comment) : Bool :=
  match loaded with
  | none => true
  | some l => if l.length = 0 then true else l.contains c.username

/-- Model of checkReviewers (src/main.go lines 231-244), composed with the
getReviewers load it performs on every call.  none means the call did not
return: getReviewers hit an unmarshal error and logrus.Fatalf terminated the
process. -/
def checkReviewers (readFile : Option String) (unmarshal : String → Option (List String))
    (c : Comment) : Option Bool :=
  match getReviewers readFile unmarshal with
  | none => none
  | some loaded => some (checkLoadedReviewers loaded c)

/-- An unmarshal outcome for the C7 refutation: yaml.Unmarshal rejecting the
text it is given. -/
def failUnmarshal : String → Option (List String) :=
  fun _ => none

/-! ### Keyword matching inside checkLgtm -/

/-- Model of strings.ToUpper restricted to the ASCII fragment the program
compares (Char.toUpper maps a-z to A-Z and fixes everything else). -/
def goToUpper (s : String) : String := ⟨s.data.map Char.toUpper⟩

/-- The note test of checkLgtm line 194: the comment text is a matching
approval comment when strings.ToUpper(note) equals the configured lgtm_note
flag exactly. -/
def noteMatches (lgtmNote : String) (note : String) : Bool :=
  goToUpper note == lgtmNote

/-- Stated from the spec sentence behind C2, for comparison with noteMatches:
the upper-cased comment text equals the configured keyword compared
case-insensitively. -/
def noteMatchesSpecCI (lgtmNote : String) (note : String) : Bool :=
  goToUpper (goToUpper note) == goToUpper lgtmNote

/-! ### The classifier checkLgtm and its observable outcome -/

/-- One outbound merge attempt: the arguments checkLgtm passes to
acceptMergeRequest. -/
structure MergeCall where
  projectID : Int
  mergeRequestIID : Int
  shouldRemoveSourceBranch : String
deriving DecidableEq

/-- The observable outcome of one checkLgtm call.  `fired` records which of
the four rejection returns (lines 179-197) exited the function, if any;
`reviewersLoaded` records whether checkReviewers (and hence the yaml load)
ran; `counterCalled` records whether checkLGTMCount ran; `retErr` is the Go
return value of checkLgtm (nil on every path); `countErr` is the error
checkLGTMCount produced, which checkLgtm only logs; `merge` is the
acceptMergeRequest invocation if one happened; `store` is the bucket
contents after the call. -/
structure LgtmOutcome where
  fired : Option Nat
  reviewersLoaded : Bool
  counterCalled : Bool
  retErr : Option String
  countErr : Option String
  merge : Option MergeCall
  store : Store

/-- Model of checkLgtm (src/main.go lines 178-228).  The Go code binds
canbeMerged, err := checkLGTMCount(comment) once; checkLGTMCount is pure
here, so its one call is written out where each of its results is used. -/
def checkLgtm (lgtmNote : String) (loaded : Option (List String)) (f : TxFail)
    (validLGTMCount : Int) (st : Store) (c : Comment) : LgtmOutcome :=
  if c.objectKind ≠ ObjectNote then
    ⟨some 1, false, false, none, none, none, st⟩
  else if checkLoadedReviewers loaded c = false then
    ⟨some 2, true, false, none, none, none, st⟩
  else if c.noteableType ≠ NoteableTypeMergeRequest then
    ⟨some 3, true, false, none, none, none, st⟩
  else if noteMatches lgtmNote c.note = false then
    ⟨some 4, true, false, none, none, none, st⟩
  else
    match (checkLGTMCount f validLGTMCount c.iid st).err with
    | some e => ⟨none, true, true, none, some e, none,
        (checkLGTMCount f validLGTMCount c.iid st).store⟩
    | none =>
      if (checkLGTMCount f validLGTMCount c.iid st).canMerge = true
          ∧ c.mergeStatus = StatusCanbeMerged then
        ⟨none, true, true, none, none,
          some ⟨c.projectID, c.iid, c.forceRemoveSourceBranch⟩,
          (checkLGTMCount f validLGTMCount c.iid st).store⟩
      else
        ⟨none, true, true, none, none, none,
          (checkLGTMCount f validLGTMCount c.iid st).store⟩

/-- The n-th rejection test of checkLgtm, in source order (1-4). -/
def rejectCond (lgtmNote : String) (loaded : Option (List String)) (c : Comment) : Nat → Prop
  | 1 => c.objectKind ≠ ObjectNote
  | 2 => checkLoadedReviewers loaded c = false
  | 3 => c.noteableType ≠ NoteableTypeMergeRequest
  | 4 => noteMatches lgtmNote c.note = false
  | _ => False

/-! ### The webhook endpoint LGTMHandler -/

/-- The HTTP response of one LGTMHandler call plus the comment handed to the
background goroutine, if one was spawned. -/
structure HandlerResult where
  status : Nat
  respBody : String
  spawned : Option Comment
deriving DecidableEq

/-- Model of LGTMHandler (src/main.go lines 139-176).  `decode` stands for
json.NewDecoder(r.Body).Decode into a Comment; `body` is none when r.Body is
nil.  An error path answers 400 with "error occurs:" plus the error text
(the deferred writer); the success path answers 200 with RespOK = "OK" and
spawns go checkLgtm(comment). -/
def LGTMHandler (decode : String → Except String Comment)
    (contentType : String) (method : String) (body : Option String) : HandlerResult :=
  if contentType ≠ "application/json" then
    ⟨400, "error occurs:" ++ "invalid content type", none⟩
  else if method ≠ "POST" then
    ⟨400, "error occurs:" ++ "invalid request body", none⟩
  else
    match body with
    | none => ⟨400, "error occurs:" ++ "invalid request body", none⟩
    | some b =>
      match decode b with
      | Except.error e => ⟨400, "error occurs:" ++ e, none⟩
      | Except.ok c => ⟨200, "OK", some c⟩

/-! ### The merge trigger acceptMergeRequest -/

/-- The outbound HTTP request acceptMergeRequest builds: method, full URL,
the PRIVATE-TOKEN header value, and the should_remove_source_branch value
carried by the JSON body. -/
structure OutboundRequest where
  method : String
  url : String
  privateTokenHeader : String
  bodyShouldRemoveSourceBranch : String
deriving DecidableEq

/-- The fixed path template of line 297. -/
def mergeRequestPath (projectID mergeRequestIID : Int) : String :=
  "/api/v4/projects/" ++ goItoa projectID ++ "/merge_requests/"
    ++ goItoa mergeRequestIID ++ "/merge"

/-- Model of acceptMergeRequest (src/main.go lines 287-305).  glURL is the
package-level parsed gitlab_url; line 297 assigns glURL.Path =
glURL.Path + the path template, mutating the global.  For the base URLs in
scope (scheme://host plus path, no query or fragment) url.URL.String() is
the scheme://host prefix followed by the path, modelled as
basePrefix ++ path.  The function returns the request it sends together
with the new value of the mutated glURL.Path. -/
def acceptMergeRequest (privateToken : String) (basePrefix : String) (glURLPath : String)
    (projectID mergeRequestIID : Int) (shouldRemoveSourceBranch : String) :
    OutboundRequest × String :=
  let newPath := glURLPath ++ mergeRequestPath projectID mergeRequestIID
  (⟨"PUT", basePrefix ++ newPath, privateToken, shouldRemoveSourceBranch⟩, newPath)

/-! ### Concurrency model for the mutex-guarded increment

N goroutines each run one checkLGTMCount call for the same merge request.
mutex.Lock serializes the calls, so an interleaved execution is a sequence
of two kinds of atomic transitions: a goroutine acquires the free mutex and
performs its bucket read (the Get/Atoi sequence), or the goroutine holding
the mutex writes the incremented count, commits and releases.  Nothing can
run between a goroutine's read and its write, because the mutex is held
throughout. -/

/-- Where one goroutine stands: not yet started, inside the critical section
having read count v, or finished. -/
inductive ProcPhase where
  | idle : ProcPhase
  | inCS : Int → ProcPhase
  | finished : ProcPhase
deriving DecidableEq

/-- The shared state: who holds the mutex, each goroutine's phase, and the
bucket contents. -/
structure SysState (N : Nat) where
  lock : Option (Fin N)
  pc : Fin N → ProcPhase
  store : Store

/-- One atomic transition of the interleaved system, for merge-request
key `key`. -/
inductive SysStep (N : Nat) (key : String) : SysState N → SysState N → Prop where
  | acquire (s : SysState N) (i : Fin N)
      (h1 : s.lock = none) (h2 : s.pc i = ProcPhase.idle) :
      SysStep N key s
        ⟨some i, Function.update s.pc i (ProcPhase.inCS (readStoredCount s.store key)), s.store⟩
  | commitRelease (s : SysState N) (i : Fin N) (v : Int)
      (h1 : s.lock = some i) (h2 : s.pc i = ProcPhase.inCS v) :
      SysStep N key s
        ⟨none, Function.update s.pc i ProcPhase.finished, putStore s.store key (goItoa (v + 1))⟩

/-- All goroutines pending, mutex free, empty store. -/
def initState (N : Nat) : SysState N := ⟨none, fun _ => ProcPhase.idle, emptyStore⟩

/-- An interleaved execution: finitely many atomic transitions. -/
def SysExec (N : Nat) (key : String) : SysState N → SysState N → Prop :=
  Relation.ReflTransGen (SysStep N key)

/-- How many goroutines have finished. -/
def doneCount {N : Nat} (pc : Fin N → ProcPhase) : Nat :=
  (Finset.univ.filter fun i => pc i = ProcPhase.finished).card

/-- The inductive invariant: the bucket holds exactly the rendered number of
finished goroutines (absent before the first commit), and a goroutine inside
the critical section holds the mutex and has read that same number. -/
def MutexInv {N : Nat} (key : String) (s : SysState N) : Prop :=
  (s.store key = if doneCount s.pc = 0 then none else some (goItoa (doneCount s.pc))) ∧
  (∀ i v, s.pc i = ProcPhase.inCS v → s.lock = some i ∧ v = (doneCount s.pc : Int))

/-- First goroutine acquires the free mutex and reads the absent count. -/
def c6midState : SysState 1 :=
  ⟨some 0, Function.update (initState 1).pc 0
    (ProcPhase.inCS (readStoredCount (initState 1).store (goItoa 42))), (initState 1).store⟩

/-- It writes back 1, commits, and releases the mutex. -/
def c6finalState : SysState 1 :=
  ⟨none, Function.update c6midState.pc 0 ProcPhase.finished,
    putStore c6midState.store (goItoa 42) (goItoa (0 + 1))⟩

/-- The event used to refute C4: it passes all four classifier checks but
its merge_status is not "can_be_merged". -/
def c4comment : Comment :=
  ⟨"note", "alice", 7, "LGTM", "MergeRequest", 42, "cannot_be_merged", "true"⟩

/-- A decoder for the C8 witness that rejects every body. -/
def rejectAllDecoder : String → Except String Comment :=
  fun _ => Except.error "invalid character"

theorem digitChar_toNat {m : Nat} (h : m < 10) : (Nat.digitChar m).toNat = 48 + m := by
  interval_cases m <;> rfl

theorem digitChar_isDecDigit {m : Nat} (h : m < 10) : isDecDigit (Nat.digitChar m) = true := by
  interval_cases m <;> rfl

theorem natRevDigits_all_digits :
    ∀ (fuel n : Nat), ∀ c ∈ natRevDigits fuel n, isDecDigit c = true := by
  intro fuel
  induction fuel with
  | zero => intro n c hc; simp [natRevDigits] at hc
  | succ fuel ih =>
    intro n c hc
    by_cases h0 : n = 0
    · simp [natRevDigits, h0] at hc
    · simp only [natRevDigits, h0, if_false, List.mem_cons] at hc
      rcases hc with rfl | hc
      · exact digitChar_isDecDigit (Nat.mod_lt _ (by norm_num))
      · exact ih _ c hc

theorem natRevDigits_foldl :
    ∀ (fuel n : Nat), n ≤ fuel → ∀ a : Nat,
      List.foldl (fun a c => a * 10 + (c.toNat - 48)) a (natRevDigits fuel n).reverse
        = a * 10 ^ (natRevDigits fuel n).length + n := by
  intro fuel
  induction fuel with
  | zero =>
    intro n hn a
    interval_cases n
    simp [natRevDigits]
  | succ fuel ih =>
    intro n hn a
    by_cases h0 : n = 0
    · simp [natRevDigits, h0]
    · have hdiv : n / 10 ≤ fuel := by
        have : n / 10 < n := Nat.div_lt_self (Nat.pos_of_ne_zero h0) (by norm_num)
        omega
      simp only [natRevDigits, h0, if_false, List.reverse_cons, List.foldl_append,
        List.foldl_cons, List.foldl_nil, List.length_cons]
      rw [ih _ hdiv a]
      have hd : (Nat.digitChar (n % 10)).toNat = 48 + n % 10 :=
        digitChar_toNat (Nat.mod_lt _ (by norm_num))
      rw [hd]
      have : 48 + n % 10 - 48 = n % 10 := by omega
      rw [this]
      have hmod := Nat.div_add_mod n 10
      ring_nf
      omega

theorem parseDecDigits_natStr (n : Nat) : parseDecDigits (natStr n).data = some n := by
  by_cases h0 : n = 0
  · subst h0; rfl
  · have hdata : (natStr n).data = (natRevDigits n n).reverse := by
      simp [natStr, h0]
    have hne : natRevDigits n n ≠ [] := by
      cases n with
      | zero => exact absurd rfl h0
      | succ m => simp [natRevDigits]
    have hfold := natRevDigits_foldl n n (le_refl n) 0
    rw [hdata]
    unfold parseDecDigits
    have hnonempty : ((natRevDigits n n).reverse.isEmpty) = false := by
      simp [List.isEmpty_iff, hne]
    rw [hnonempty]
    have hall : (natRevDigits n n).reverse.all isDecDigit = true := by
      simp only [List.all_eq_true, List.mem_reverse]
      exact fun c hc => natRevDigits_all_digits n n c hc
    rw [if_neg (by simp), if_pos hall, hfold]
    simp

theorem natStr_head_digit (n : Nat) :
    ∃ c cs, (natStr n).data = c :: cs ∧ isDecDigit c = true := by
  by_cases h0 : n = 0
  · exact ⟨'0', [], by subst h0; rfl, rfl⟩
  · have hne : natRevDigits n n ≠ [] := by
      cases n with
      | zero => exact absurd rfl h0
      | succ m => simp [natRevDigits]
    have hdata : (natStr n).data = (natRevDigits n n).reverse := by
      simp [natStr, h0]
    have hrevne : (natRevDigits n n).reverse ≠ [] := fun h =>
      hne (List.reverse_eq_nil_iff.mp h)
    rcases List.exists_cons_of_ne_nil hrevne with ⟨c, cs, hc⟩
    refine ⟨c, cs, by rw [hdata, hc], ?_⟩
    have : c ∈ (natRevDigits n n).reverse := by rw [hc]; exact List.mem_cons_self _ _
    exact natRevDigits_all_digits n n c (List.mem_reverse.mp this)

/-- Atoi is a left inverse of Itoa: reading back a rendered count recovers it. -/
theorem goAtoi_goItoa (i : Int) : goAtoi (goItoa i) = some i := by
  by_cases hneg : i < 0
  · have htoNat : ((-i).toNat : Int) = -i := Int.toNat_of_nonneg (by omega)
    have hminus : goItoa i = "-" ++ natStr (-i).toNat := by simp [goItoa, hneg]
    have hdata2 : (goItoa i).data = '-' :: (natStr (-i).toNat).data := by
      rw [hminus, String.data_append]; rfl
    rw [goAtoi, hdata2]
    simp only [goAtoiList, if_neg (by decide : ¬('-' = '+')), if_pos rfl]
    rw [parseDecDigits_natStr]
    show some (-(((-i).toNat : Nat) : Int)) = some i
    congr 1
    omega
  · have htoNat : (i.toNat : Int) = i := Int.toNat_of_nonneg (by omega)
    have hrepr : goItoa i = natStr i.toNat := by simp [goItoa, hneg]
    rcases natStr_head_digit i.toNat with ⟨c, cs, hdata, hdig⟩
    have hc1 : ¬(c = '+') := by
      intro h; subst h; simp [isDecDigit] at hdig
    have hc2 : ¬(c = '-') := by
      intro h; subst h; simp [isDecDigit] at hdig
    rw [goAtoi, hrepr, hdata]
    simp only [goAtoiList, if_neg hc1, if_neg hc2]
    rw [← hdata, parseDecDigits_natStr]
    simp [htoNat]

/-- Rendered counts are never the empty byte string (the len(countByte) > 0
test in checkLGTMCount therefore passes for every stored count). -/
theorem goItoa_data_ne_nil (i : Int) : (goItoa i).data ≠ [] := by
  by_cases hneg : i < 0
  · have hminus : goItoa i = "-" ++ natStr (-i).toNat := by simp [goItoa, hneg]
    rw [hminus, String.data_append]
    intro h
    rw [show ("-").data = ['-'] from rfl] at h
    exact List.cons_ne_nil _ _ h
  · have hrepr : goItoa i = natStr i.toNat := by simp [goItoa, hneg]
    rcases natStr_head_digit i.toNat with ⟨c, cs, hdata, _⟩
    rw [hrepr, hdata]
    exact List.cons_ne_nil _ _

theorem goItoa_length_pos (i : Int) : 0 < (goItoa i).length := by
  have h := goItoa_data_ne_nil i
  have : (goItoa i).length = (goItoa i).data.length := rfl
  rw [this]
  exact List.length_pos.mpr h

theorem readStoredCount_some_goItoa (st : Store) (key : String) (i : Int)
    (h : st key = some (goItoa i)) : readStoredCount st key = i := by
  rw [readStoredCount, h]
  show (if 0 < (goItoa i).length then
    (match goAtoi (goItoa i) with | some n => n | none => 0) else 0) = i
  rw [if_pos (goItoa_length_pos i), goAtoi_goItoa]

theorem readStoredCount_put_self (st : Store) (key : String) (i : Int) :
    readStoredCount (putStore st key (goItoa i)) key = i := by
  exact readStoredCount_some_goItoa _ _ _ (by simp [putStore])

theorem seqRun_self (threshold : Int) (m : Int) :
    ∀ k : Nat, seqRun threshold m k (goItoa m) =
      if k = 0 then none else some (goItoa (k : Int)) := by
  intro k
  induction k with
  | zero => rfl
  | succ k ih =>
    have hcount : readStoredCount (seqRun threshold m k) (goItoa m) = (k : Int) := by
      by_cases h0 : k = 0
      · rw [readStoredCount, ih, if_pos h0, h0]
        rfl
      · exact readStoredCount_some_goItoa _ _ _ (by rw [ih, if_neg h0])
    show (checkLGTMCount noFail threshold m (seqRun threshold m k)).store (goItoa m) = _
    show putStore (seqRun threshold m k) (goItoa m)
      (goItoa (readStoredCount (seqRun threshold m k) (goItoa m) + 1)) (goItoa m) = _
    rw [hcount]
    have hcast : ((k : Int) + 1) = (((k + 1 : Nat)) : Int) := by push_cast; ring
    rw [hcast]
    simp only [putStore, if_pos rfl, if_neg (Nat.succ_ne_zero k)]
    simp

theorem doneCount_update_not_finished {N : Nat} (pc : Fin N → ProcPhase) (i : Fin N)
    (x : ProcPhase) (hold : pc i ≠ ProcPhase.finished) (hnew : x ≠ ProcPhase.finished) :
    doneCount (Function.update pc i x) = doneCount pc := by
  unfold doneCount
  congr 1
  apply Finset.filter_congr
  intro j _
  by_cases hj : j = i
  · subst hj
    simp [Function.update_same, hnew, hold]
  · simp [Function.update_noteq hj]

theorem doneCount_update_finished {N : Nat} (pc : Fin N → ProcPhase) (i : Fin N)
    (hold : pc i ≠ ProcPhase.finished) :
    doneCount (Function.update pc i ProcPhase.finished) = doneCount pc + 1 := by
  unfold doneCount
  have hset : (Finset.univ.filter fun j => Function.update pc i ProcPhase.finished j
      = ProcPhase.finished)
      = insert i (Finset.univ.filter fun j => pc j = ProcPhase.finished) := by
    ext j
    by_cases hj : j = i
    · subst hj
      simp [Function.update_same]
    · simp [Function.update_noteq hj, hj]
  rw [hset]
  rw [Finset.card_insert_of_not_mem (by simp [hold])]

theorem readStoredCount_of_inv {N : Nat} (key : String) (s : SysState N)
    (h : MutexInv key s) : readStoredCount s.store key = (doneCount s.pc : Int) := by
  rcases h with ⟨h1, _⟩
  by_cases h0 : doneCount s.pc = 0
  · rw [if_pos h0] at h1
    rw [readStoredCount, h1, h0]
    rfl
  · rw [if_neg h0] at h1
    exact readStoredCount_some_goItoa _ _ _ h1

theorem mutexInv_init (N : Nat) (key : String) : MutexInv key (initState N) := by
  constructor
  · have h0 : doneCount (initState N).pc = 0 := by
      simp [doneCount, initState]
    rw [h0]
    rfl
  · intro i v h
    have hidle : (initState N).pc i = ProcPhase.idle := rfl
    rw [hidle] at h
    exact ProcPhase.noConfusion h

theorem mutexInv_step {N : Nat} (key : String) (t t' : SysState N)
    (hstep : SysStep N key t t') (hinv : MutexInv key t) : MutexInv key t' := by
  cases hstep with
  | acquire i h1 h2 =>
    have hido : t.pc i ≠ ProcPhase.finished := by rw [h2]; simp
    have hdc : doneCount (Function.update t.pc i
        (ProcPhase.inCS (readStoredCount t.store key))) = doneCount t.pc :=
      doneCount_update_not_finished _ _ _ hido (by simp)
    constructor
    · show t.store key = _
      rw [hdc]
      exact hinv.1
    · intro j w hj
      by_cases hji : j = i
      · subst hji
        rw [show (SysState.mk (some j) (Function.update t.pc j
            (ProcPhase.inCS (readStoredCount t.store key))) t.store).pc
            = Function.update t.pc j (ProcPhase.inCS (readStoredCount t.store key))
            from rfl, Function.update_same] at hj
        have hw : w = readStoredCount t.store key := by
          injection hj with hj
          exact hj.symm
        constructor
        · rfl
        · rw [hw, hdc, readStoredCount_of_inv key t hinv]
      · rw [show (SysState.mk (some i) (Function.update t.pc i
            (ProcPhase.inCS (readStoredCount t.store key))) t.store).pc
            = Function.update t.pc i (ProcPhase.inCS (readStoredCount t.store key))
            from rfl, Function.update_noteq hji] at hj
        have := (hinv.2 j w hj).1
        rw [this] at h1
        exact absurd h1 (by simp)
  | commitRelease i v h1 h2 =>
    have hino : t.pc i ≠ ProcPhase.finished := by rw [h2]; simp
    have hv : v = (doneCount t.pc : Int) := (hinv.2 i v h2).2
    have hdc : doneCount (Function.update t.pc i ProcPhase.finished)
        = doneCount t.pc + 1 := doneCount_update_finished _ _ hino
    constructor
    · show putStore t.store key (goItoa (v + 1)) key =
        if doneCount (Function.update t.pc i ProcPhase.finished) = 0 then none
        else some (goItoa (doneCount (Function.update t.pc i ProcPhase.finished)))
      rw [hdc, if_neg (Nat.succ_ne_zero _)]
      simp only [putStore, if_pos rfl]
      rw [hv]
      push_cast
      ring_nf
    · intro j w hj
      by_cases hji : j = i
      · subst hji
        rw [show (SysState.mk none (Function.update t.pc j ProcPhase.finished)
            (putStore t.store key (goItoa (v + 1)))).pc
            = Function.update t.pc j ProcPhase.finished from rfl,
          Function.update_same] at hj
        exact absurd hj (by simp)
      · rw [show (SysState.mk none (Function.update t.pc i ProcPhase.finished)
            (putStore t.store key (goItoa (v + 1)))).pc
            = Function.update t.pc i ProcPhase.finished from rfl,
          Function.update_noteq hji] at hj
        have hlock := (hinv.2 j w hj).1
        rw [h1] at hlock
        injection hlock with hlock
        exact absurd hlock.symm hji

theorem mutexInv_exec {N : Nat} (key : String) (s' : SysState N)
    (h : SysExec N key (initState N) s') : MutexInv key s' := by
  induction h with
  | refl => exact mutexInv_init N key
  | tail _ hstep ih => exact mutexInv_step key _ _ hstep ih

theorem doneCount_all {N : Nat} (pc : Fin N → ProcPhase)
    (h : ∀ i, pc i = ProcPhase.finished) : doneCount pc = N := by
  unfold doneCount
  have : (Finset.univ.filter fun i => pc i = ProcPhase.finished) = Finset.univ := by
    ext i
    simp [h i]
  rw [this, Finset.card_univ, Fintype.card_fin]

/-! ### Claim theorems -/

/-- C1: for every merge-request id m, starting from a store with no entry
for m, the k-th of k sequential checkLGTMCount calls with threshold t ≥ 1
returns no error, returns thresholdReached = true exactly when k mod t = 0,
and leaves the stored count for m equal to k. -/
theorem checkLGTMCount_sequential (m t : Int) (k : Nat) (ht : 1 ≤ t) (hk : 1 ≤ k) :
    (checkLGTMCount noFail t m (seqRun t m (k - 1))).err = none ∧
    ((checkLGTMCount noFail t m (seqRun t m (k - 1))).canMerge = true ↔ (k : Int) % t = 0) ∧
    (checkLGTMCount noFail t m (seqRun t m (k - 1))).store = seqRun t m k ∧
    seqRun t m k (goItoa m) = some (goItoa (k : Int)) := by
  obtain ⟨j, rfl⟩ : ∃ j, k = j + 1 := ⟨k - 1, by omega⟩
  have hk1 : j + 1 - 1 = j := by omega
  rw [hk1]
  have hread : readStoredCount (seqRun t m j) (goItoa m) = (j : Int) := by
    by_cases h0 : j = 0
    · rw [readStoredCount, seqRun_self, if_pos h0, h0]
      rfl
    · exact readStoredCount_some_goItoa _ _ _ (by rw [seqRun_self, if_neg h0])
  refine ⟨rfl, ?_, rfl, ?_⟩
  · show (Int.tmod (readStoredCount (seqRun t m j) (goItoa m) + 1) t == 0) = true ↔ _
    rw [hread, beq_iff_eq, Int.tmod_eq_emod (by omega) (by omega)]
    have hcast : ((j : Int) + 1) = (((j + 1 : Nat)) : Int) := by push_cast; ring
    rw [hcast]
  · rw [seqRun_self, if_neg (Nat.succ_ne_zero j)]

/-- C1 witness: threshold 2, merge request 42, fourth call. -/
theorem checkLGTMCount_sequential_witness :
    (1 : Int) ≤ 2 ∧ (1 : Nat) ≤ 4 ∧
    ((checkLGTMCount noFail 2 42 (seqRun 2 42 (4 - 1))).err = none ∧
     ((checkLGTMCount noFail 2 42 (seqRun 2 42 (4 - 1))).canMerge = true
        ↔ ((4 : Nat) : Int) % 2 = 0) ∧
     (checkLGTMCount noFail 2 42 (seqRun 2 42 (4 - 1))).store = seqRun 2 42 4 ∧
     seqRun 2 42 4 (goItoa 42) = some (goItoa ((4 : Nat) : Int))) :=
  ⟨by norm_num, by norm_num, checkLGTMCount_sequential 42 2 4 (by norm_num) (by norm_num)⟩

/-- C2 counterexample: with the keyword configured in lower case ("lgtm"),
the comment "lgtm" is case-insensitively equal to the keyword after
upper-casing, yet the code rejects it, because line 194 compares
strings.ToUpper(note) to the keyword byte for byte. -/
theorem noteMatches_keyword_case_counterexample :
    noteMatches "lgtm" "lgtm" = false ∧ noteMatchesSpecCI "lgtm" "lgtm" = true := by
  constructor
  · rfl
  · rfl

/-- C2 amended: a comment s matches exactly when strings.ToUpper(s) equals
the configured keyword byte for byte (case-sensitively in the keyword); in
particular, with the default keyword "LGTM", both "lgtm" and "LGTM" match
and "lgtm please" never matches. -/
theorem noteMatches_uppercase_exact :
    (∀ w s, noteMatches w s = true ↔ goToUpper s = w) ∧
    noteMatches NoteLGTM "lgtm" = true ∧
    noteMatches NoteLGTM "LGTM" = true ∧
    noteMatches NoteLGTM "lgtm please" = false := by
  refine ⟨fun w s => ?_, rfl, rfl, rfl⟩
  rw [noteMatches, beq_iff_eq]

theorem checkLoadedReviewers_true_iff (loaded : Option (List String)) (c : Comment) :
    checkLoadedReviewers loaded c = true ↔
      (loaded = none ∨ ∃ l, loaded = some l ∧ (l = [] ∨ c.username ∈ l)) := by
  cases loaded with
  | none => simp [checkLoadedReviewers]
  | some l =>
    rw [checkLoadedReviewers]
    by_cases h0 : l.length = 0
    · have hnil : l = [] := List.length_eq_zero.mp h0
      subst hnil
      simp
    · rw [if_neg h0]
      have hne : l ≠ [] := by
        intro h
        subst h
        simp at h0
      constructor
      · intro h
        refine Or.inr ⟨l, rfl, Or.inr ?_⟩
        simpa using h
      · rintro (h | ⟨l', hl', hmem⟩)
        · exact absurd h (by simp)
        · injection hl' with hl'
          subst hl'
          rcases hmem with hmem | hmem
          · exact absurd hmem hne
          · simpa using hmem

/-- C7 counterexample: a reviewers.yaml that reads but fails yaml.Unmarshal
is a source that cannot be loaded, yet checkReviewers does not return true
for the commenter: line 79 calls logrus.Fatalf and the call never returns
(the process exits). -/
theorem checkReviewers_parse_failure_counterexample :
    checkReviewers (some "bad yaml") failUnmarshal c4comment ≠ some true ∧
    checkReviewers (some "bad yaml") failUnmarshal c4comment = none := by
  refine ⟨by decide, rfl⟩

/-- C7 amended: when reviewers.yaml cannot be read, checkReviewers returns
true for every commenter; when the file reads but fails to unmarshal, the
call does not return at all (logrus.Fatalf exits the process); when a list
is loaded, the call returns true exactly when the list is empty or some
entry equals the commenter's username case-sensitively. -/
theorem checkReviewers_fail_open_or_exact (readFile : Option String)
    (unmarshal : String → Option (List String)) (c : Comment) :
    (readFile = none → checkReviewers readFile unmarshal c = some true) ∧
    (∀ s, readFile = some s → unmarshal s = none →
      checkReviewers readFile unmarshal c = none) ∧
    (∀ s l, readFile = some s → unmarshal s = some l →
      (checkReviewers readFile unmarshal c = some true ↔ (l = [] ∨ c.username ∈ l))) := by
  refine ⟨?_, ?_, ?_⟩
  · intro h
    subst h
    rfl
  · intro s hs hu
    subst hs
    show (match (match unmarshal s with
        | none => none
        | some l => some (some l) : Option (Option (List String))) with
      | none => none
      | some loaded => some (checkLoadedReviewers loaded c)) = none
    rw [hu]
  · intro s l hs hu
    subst hs
    show (match (match unmarshal s with
        | none => none
        | some l => some (some l) : Option (Option (List String))) with
      | none => none
      | some loaded => some (checkLoadedReviewers loaded c)) = some true
      ↔ (l = [] ∨ c.username ∈ l)
    rw [hu]
    show some (checkLoadedReviewers (some l) c) = some true ↔ (l = [] ∨ c.username ∈ l)
    rw [Option.some_inj, checkLoadedReviewers_true_iff]
    simp

/-- C7 amended witness: a readable reviewers.yaml yielding the list
containing exactly the commenter's username. -/
theorem checkReviewers_fail_open_or_exact_witness :
    ((some "reviewers" : Option String) = none →
      checkReviewers (some "reviewers") (fun _ => some ["alice"]) c4comment = some true) ∧
    (∀ s, (some "reviewers" : Option String) = some s →
      (fun _ : String => some ["alice"]) s = none →
      checkReviewers (some "reviewers") (fun _ => some ["alice"]) c4comment = none) ∧
    (∀ s l, (some "reviewers" : Option String) = some s →
      (fun _ : String => some ["alice"]) s = some l →
      (checkReviewers (some "reviewers") (fun _ => some ["alice"]) c4comment = some true
        ↔ (l = [] ∨ c4comment.username ∈ l))) :=
  checkReviewers_fail_open_or_exact (some "reviewers") (fun _ => some ["alice"]) c4comment

/-- C10: a successful checkLGTMCount call sets the entry keyed by the
decimal string of the merge-request id to one plus the previous count (1
when the entry is absent or not a parseable integer) and leaves every other
key unchanged. -/
theorem checkLGTMCount_frame (t iid : Int) (st : Store) :
    (checkLGTMCount noFail t iid st).store (goItoa iid)
      = some (goItoa (readStoredCount st (goItoa iid) + 1)) ∧
    (st (goItoa iid) = none →
      (checkLGTMCount noFail t iid st).store (goItoa iid) = some (goItoa 1)) ∧
    (∀ v, st (goItoa iid) = some v → goAtoi v = none →
      (checkLGTMCount noFail t iid st).store (goItoa iid) = some (goItoa 1)) ∧
    (∀ k, k ≠ goItoa iid → (checkLGTMCount noFail t iid st).store k = st k) := by
  have hstore : (checkLGTMCount noFail t iid st).store
      = putStore st (goItoa iid) (goItoa (readStoredCount st (goItoa iid) + 1)) := rfl
  refine ⟨?_, ?_, ?_, ?_⟩
  · rw [hstore]
    simp [putStore]
  · intro h
    have h0 : readStoredCount st (goItoa iid) = 0 := by
      rw [readStoredCount, h]
    rw [hstore, h0]
    simp [putStore]
  · intro v hv hparse
    have h0 : readStoredCount st (goItoa iid) = 0 := by
      rw [readStoredCount, hv]
      show (if 0 < v.length then
        (match goAtoi v with | some n => n | none => (0 : Int)) else (0 : Int)) = (0 : Int)
      by_cases hl : 0 < v.length
      · rw [if_pos hl, hparse]
      · rw [if_neg hl]
    rw [hstore, h0]
    simp [putStore]
  · intro k hk
    rw [hstore]
    simp [putStore, hk]

/-- C10 witness: a store holding the unparseable value "oops" for merge
request 3; the call resets that entry to "1" and leaves key "7" alone. -/
theorem checkLGTMCount_frame_witness :
    (checkLGTMCount noFail 2 3 (putStore emptyStore (goItoa 3) "oops")).store (goItoa 3)
      = some (goItoa 1) ∧
    (checkLGTMCount noFail 2 3 (putStore emptyStore (goItoa 3) "oops")).store (goItoa 7)
      = putStore emptyStore (goItoa 3) "oops" (goItoa 7) :=
  ⟨(checkLGTMCount_frame 2 3 _).2.2.1 "oops" (by rfl) (by rfl),
   (checkLGTMCount_frame 2 3 _).2.2.2 (goItoa 7) (by decide)⟩

/-- C3: the first acceptMergeRequest call sends PUT with the PRIVATE-TOKEN
header and the should_remove_source_branch body to the base URL with the
path template appended once, but because line 297 appends to the global
glURL.Path, the second call's URL carries the path template twice; the claim
fails from the second call on. -/
theorem acceptMergeRequest_second_call_url :
    ((acceptMergeRequest "tok" "https://git.example.com" "" 1 2 "true").1.method = "PUT" ∧
     (acceptMergeRequest "tok" "https://git.example.com" "" 1 2 "true").1.privateTokenHeader
       = "tok" ∧
     (acceptMergeRequest "tok" "https://git.example.com" "" 1 2 "true").1.bodyShouldRemoveSourceBranch
       = "true" ∧
     (acceptMergeRequest "tok" "https://git.example.com" "" 1 2 "true").1.url
       = "https://git.example.com" ++ mergeRequestPath 1 2) ∧
    ((acceptMergeRequest "tok" "https://git.example.com"
        (acceptMergeRequest "tok" "https://git.example.com" "" 1 2 "true").2 1 2 "true").1.url
       ≠ "https://git.example.com" ++ mergeRequestPath 1 2 ∧
     (acceptMergeRequest "tok" "https://git.example.com"
        (acceptMergeRequest "tok" "https://git.example.com" "" 1 2 "true").2 1 2 "true").1.url
       = "https://git.example.com" ++ mergeRequestPath 1 2 ++ mergeRequestPath 1 2) := by
  refine ⟨⟨rfl, rfl, rfl, by decide⟩, by decide, by decide⟩

/-- C4 counterexample: a qualifying approval comment on a non-mergeable
merge request triggers no merge, but its counter entry is NOT left
unchanged: checkLgtm calls checkLGTMCount before looking at merge_status,
so the stored count for iid 42 goes from absent to "1". -/
theorem checkLgtm_unmergeable_still_counts :
    (checkLgtm NoteLGTM none noFail 2 emptyStore c4comment).merge = none ∧
    emptyStore (goItoa 42) = none ∧
    (checkLgtm NoteLGTM none noFail 2 emptyStore c4comment).store (goItoa 42)
      = some (goItoa 1) := by
  refine ⟨by decide, rfl, by decide⟩

/-- C4 amended: an event that passes the four approval checks but whose
merge-request mergeability flag is not "can_be_merged" triggers no outbound
merge, but its approval counter entry is still incremented; an outbound
merge happens only when the threshold decision is true and the flag equals
"can_be_merged". -/
theorem checkLgtm_unmergeable_amended (kw : String) (loaded : Option (List String))
    (t : Int) (st : Store) (c : Comment)
    (h1 : c.objectKind = ObjectNote) (h2 : checkLoadedReviewers loaded c = true)
    (h3 : c.noteableType = NoteableTypeMergeRequest) (h4 : noteMatches kw c.note = true)
    (h5 : c.mergeStatus ≠ StatusCanbeMerged) :
    ((checkLgtm kw loaded noFail t st c).merge = none ∧
     (checkLgtm kw loaded noFail t st c).store (goItoa c.iid)
       = some (goItoa (readStoredCount st (goItoa c.iid) + 1))) ∧
    (∀ (f : TxFail) (d : Comment), (checkLgtm kw loaded f t st d).merge ≠ none →
      (checkLGTMCount f t d.iid st).canMerge = true ∧ d.mergeStatus = StatusCanbeMerged) := by
  constructor
  · rw [checkLgtm, if_neg (by simp [h1]), if_neg (by simp [h2]), if_neg (by simp [h3]),
      if_neg (by simp [h4])]
    have herr : (checkLGTMCount noFail t c.iid st).err = none := rfl
    rw [herr, if_neg (fun hand => h5 hand.2)]
    refine ⟨rfl, ?_⟩
    show putStore st (goItoa c.iid) (goItoa (readStoredCount st (goItoa c.iid) + 1))
      (goItoa c.iid) = _
    simp [putStore]
  · intro f d hmerge
    rw [checkLgtm] at hmerge
    by_cases g1 : d.objectKind ≠ ObjectNote
    · rw [if_pos g1] at hmerge
      exact absurd rfl hmerge
    · rw [if_neg g1] at hmerge
      by_cases g2 : checkLoadedReviewers loaded d = false
      · rw [if_pos g2] at hmerge
        exact absurd rfl hmerge
      · rw [if_neg g2] at hmerge
        by_cases g3 : d.noteableType ≠ NoteableTypeMergeRequest
        · rw [if_pos g3] at hmerge
          exact absurd rfl hmerge
        · rw [if_neg g3] at hmerge
          by_cases g4 : noteMatches kw d.note = false
          · rw [if_pos g4] at hmerge
            exact absurd rfl hmerge
          · rw [if_neg g4] at hmerge
            cases herr : (checkLGTMCount f t d.iid st).err with
            | some e =>
              rw [herr] at hmerge
              exact absurd rfl hmerge
            | none =>
              rw [herr] at hmerge
              by_cases g5 : (checkLGTMCount f t d.iid st).canMerge = true
                ∧ d.mergeStatus = StatusCanbeMerged
              · exact g5
              · rw [if_neg g5] at hmerge
                exact absurd rfl hmerge

/-- C4 amended witness: the concrete event of the counterexample. -/
theorem checkLgtm_unmergeable_amended_witness :
    (c4comment.objectKind = ObjectNote ∧
     checkLoadedReviewers none c4comment = true ∧
     c4comment.noteableType = NoteableTypeMergeRequest ∧
     noteMatches NoteLGTM c4comment.note = true ∧
     c4comment.mergeStatus ≠ StatusCanbeMerged) ∧
    (((checkLgtm NoteLGTM none noFail 2 emptyStore c4comment).merge = none ∧
      (checkLgtm NoteLGTM none noFail 2 emptyStore c4comment).store (goItoa c4comment.iid)
        = some (goItoa (readStoredCount emptyStore (goItoa c4comment.iid) + 1))) ∧
     (∀ (f : TxFail) (d : Comment),
        (checkLgtm NoteLGTM none f 2 emptyStore d).merge ≠ none →
        (checkLGTMCount f 2 d.iid emptyStore).canMerge = true ∧
        d.mergeStatus = StatusCanbeMerged)) :=
  ⟨⟨rfl, rfl, rfl, rfl, by decide⟩,
   checkLgtm_unmergeable_amended NoteLGTM none 2 emptyStore c4comment
     rfl rfl rfl rfl (by decide)⟩

/-- C5: whenever a bolt step of checkLGTMCount fails, the call returns the
failing step's error and the durable store is unchanged (no commit, so the
transaction's write never becomes visible), the mutex is released on every
exit path (one Lock, one deferred Unlock), and on a commit failure
specifically the thresholdReached boolean computed from the incremented
count is returned alongside the error. -/
theorem checkLGTMCount_error_paths (f : TxFail) (t iid : Int) (st : Store)
    (hf : f.beginErr ≠ none ∨ f.bucketErr ≠ none ∨ f.putErr ≠ none ∨ f.commitErr ≠ none) :
    (checkLGTMCount f t iid st).err ≠ none ∧
    (checkLGTMCount f t iid st).store = st ∧
    (checkLGTMCount f t iid st).locks = [true, false] ∧
    (∀ e, f.beginErr = some e → (checkLGTMCount f t iid st).err = some e) ∧
    (∀ e, f.beginErr = none → f.bucketErr = some e →
      (checkLGTMCount f t iid st).err = some e) ∧
    (∀ e, f.beginErr = none → f.bucketErr = none → f.putErr = some e →
      (checkLGTMCount f t iid st).err = some e) ∧
    (∀ e, f.beginErr = none → f.bucketErr = none → f.putErr = none → f.commitErr = some e →
      (checkLGTMCount f t iid st).err = some e ∧
      (checkLGTMCount f t iid st).canMerge
        = (Int.tmod (readStoredCount st (goItoa iid) + 1) t == 0)) := by
  obtain ⟨b1, b2, b3, b4⟩ := f
  cases b1 with
  | some e1 =>
    refine ⟨by simp [checkLGTMCount], rfl, rfl, ?_, ?_, ?_, ?_⟩
    · intro e he
      injection he with he
      subst he
      rfl
    · intro e he _
      exact absurd he (by simp)
    · intro e he _ _
      exact absurd he (by simp)
    · intro e he _ _ _
      exact absurd he (by simp)
  | none =>
    cases b2 with
    | some e2 =>
      refine ⟨by simp [checkLGTMCount], rfl, rfl, ?_, ?_, ?_, ?_⟩
      · intro e he
        exact absurd he (by simp)
      · intro e _ he
        injection he with he
        subst he
        rfl
      · intro e _ he _
        exact absurd he (by simp)
      · intro e _ he _ _
        exact absurd he (by simp)
    | none =>
      cases b3 with
      | some e3 =>
        refine ⟨by simp [checkLGTMCount], rfl, rfl, ?_, ?_, ?_, ?_⟩
        · intro e he
          exact absurd he (by simp)
        · intro e _ he
          exact absurd he (by simp)
        · intro e _ _ he
          injection he with he
          subst he
          rfl
        · intro e _ _ he _
          exact absurd he (by simp)
      | none =>
        cases b4 with
        | some e4 =>
          refine ⟨by simp [checkLGTMCount], rfl, rfl, ?_, ?_, ?_, ?_⟩
          · intro e he
            exact absurd he (by simp)
          · intro e _ he
            exact absurd he (by simp)
          · intro e _ _ he
            exact absurd he (by simp)
          · intro e _ _ _ he
            injection he with he
            subst he
            exact ⟨rfl, rfl⟩
        | none =>
          rcases hf with h | h | h | h <;> exact absurd rfl h

/-- C5 witness: a commit failure with threshold 2 on merge request 5 against
the empty store. -/
theorem checkLGTMCount_error_paths_witness :
    ((⟨none, none, none, some "commit failed"⟩ : TxFail).beginErr ≠ none ∨
     (⟨none, none, none, some "commit failed"⟩ : TxFail).bucketErr ≠ none ∨
     (⟨none, none, none, some "commit failed"⟩ : TxFail).putErr ≠ none ∨
     (⟨none, none, none, some "commit failed"⟩ : TxFail).commitErr ≠ none) ∧
    ((checkLGTMCount ⟨none, none, none, some "commit failed"⟩ 2 5 emptyStore).err ≠ none ∧
     (checkLGTMCount ⟨none, none, none, some "commit failed"⟩ 2 5 emptyStore).store
       = emptyStore ∧
     (checkLGTMCount ⟨none, none, none, some "commit failed"⟩ 2 5 emptyStore).locks
       = [true, false] ∧
     (∀ e, (⟨none, none, none, some "commit failed"⟩ : TxFail).beginErr = some e →
       (checkLGTMCount ⟨none, none, none, some "commit failed"⟩ 2 5 emptyStore).err = some e) ∧
     (∀ e, (⟨none, none, none, some "commit failed"⟩ : TxFail).beginErr = none →
       (⟨none, none, none, some "commit failed"⟩ : TxFail).bucketErr = some e →
       (checkLGTMCount ⟨none, none, none, some "commit failed"⟩ 2 5 emptyStore).err = some e) ∧
     (∀ e, (⟨none, none, none, some "commit failed"⟩ : TxFail).beginErr = none →
       (⟨none, none, none, some "commit failed"⟩ : TxFail).bucketErr = none →
       (⟨none, none, none, some "commit failed"⟩ : TxFail).putErr = some e →
       (checkLGTMCount ⟨none, none, none, some "commit failed"⟩ 2 5 emptyStore).err = some e) ∧
     (∀ e, (⟨none, none, none, some "commit failed"⟩ : TxFail).beginErr = none →
       (⟨none, none, none, some "commit failed"⟩ : TxFail).bucketErr = none →
       (⟨none, none, none, some "commit failed"⟩ : TxFail).putErr = none →
       (⟨none, none, none, some "commit failed"⟩ : TxFail).commitErr = some e →
       (checkLGTMCount ⟨none, none, none, some "commit failed"⟩ 2 5 emptyStore).err = some e ∧
       (checkLGTMCount ⟨none, none, none, some "commit failed"⟩ 2 5 emptyStore).canMerge
         = (Int.tmod (readStoredCount emptyStore (goItoa 5) + 1) 2 == 0))) :=
  ⟨Or.inr (Or.inr (Or.inr (by simp))),
   checkLGTMCount_error_paths ⟨none, none, none, some "commit failed"⟩ 2 5 emptyStore
     (Or.inr (Or.inr (Or.inr (by simp))))⟩

/-- C6: N concurrent checkLGTMCount calls for the same merge request m,
serialized by the global mutex, lose no increment: every complete
interleaved execution from the empty store ends with the stored count for m
equal to N. -/
theorem checkLGTMCount_no_lost_increments (N : Nat) (m : Int) (sF : SysState N)
    (hexec : SysExec N (goItoa m) (initState N) sF)
    (hdone : ∀ i, sF.pc i = ProcPhase.finished) (hN : 1 ≤ N) :
    sF.store (goItoa m) = some (goItoa (N : Int)) := by
  have hinv := mutexInv_exec (goItoa m) sF hexec
  have hd : doneCount sF.pc = N := doneCount_all _ hdone
  have h1 := hinv.1
  rw [hd] at h1
  rw [h1, if_neg (by omega)]

/-- C6 witness: one goroutine, merge request 42: acquire-read then
commit-release, ending with count "1". -/
theorem checkLGTMCount_no_lost_increments_witness :
    c6finalState.store (goItoa 42) = some (goItoa ((1 : Nat) : Int)) := by
  apply checkLGTMCount_no_lost_increments 1 42 c6finalState ?_ ?_ (le_refl 1)
  · have s1 : SysStep 1 (goItoa 42) (initState 1) c6midState :=
      SysStep.acquire (initState 1) 0 rfl rfl
    have s2 : SysStep 1 (goItoa 42) c6midState c6finalState :=
      SysStep.commitRelease c6midState 0 0 rfl rfl
    exact Relation.ReflTransGen.tail (Relation.ReflTransGen.tail Relation.ReflTransGen.refl s1) s2
  · intro i
    have h0 : i = 0 := by omega
    subst h0
    rfl

/-- C8: LGTMHandler answers 400 with the error text exactly when the
Content-Type is not "application/json", the method is not POST, the body is
absent, or the body fails to decode; in all those cases no background task
is spawned; on every other path it answers 200 with body "OK". -/
theorem LGTMHandler_validation (decode : String → Except String Comment)
    (contentType method : String) (body : Option String) :
    ((contentType ≠ "application/json" ∨ method ≠ "POST" ∨ body = none ∨
        (∃ s e, body = some s ∧ decode s = Except.error e))
      ↔ (LGTMHandler decode contentType method body).status = 400) ∧
    ((LGTMHandler decode contentType method body).status = 400 →
      (LGTMHandler decode contentType method body).spawned = none ∧
      ∃ e, (LGTMHandler decode contentType method body).respBody = "error occurs:" ++ e) ∧
    ((LGTMHandler decode contentType method body).status ≠ 400 →
      (LGTMHandler decode contentType method body).status = 200 ∧
      (LGTMHandler decode contentType method body).respBody = "OK" ∧
      ∃ c, (LGTMHandler decode contentType method body).spawned = some c) := by
  by_cases h1 : contentType = "application/json"
  · by_cases h2 : method = "POST"
    · cases body with
      | none =>
        have hrun : LGTMHandler decode contentType method none
            = ⟨400, "error occurs:" ++ "invalid request body", none⟩ := by
          rw [LGTMHandler, if_neg (by simp [h1]), if_neg (by simp [h2])]
        rw [hrun]
        refine ⟨by simp, fun _ => ⟨rfl, ⟨"invalid request body", rfl⟩⟩, fun h => absurd rfl h⟩
      | some b =>
        cases hd : decode b with
        | error e =>
          have hrun : LGTMHandler decode contentType method (some b)
              = ⟨400, "error occurs:" ++ e, none⟩ := by
            rw [LGTMHandler, if_neg (by simp [h1]), if_neg (by simp [h2]), hd]
          rw [hrun]
          refine ⟨?_, fun _ => ⟨rfl, ⟨e, rfl⟩⟩, fun h => absurd rfl h⟩
          constructor
          · intro _
            rfl
          · intro _
            exact Or.inr (Or.inr (Or.inr ⟨b, e, rfl, hd⟩))
        | ok c =>
          have hrun : LGTMHandler decode contentType method (some b)
              = ⟨200, "OK", some c⟩ := by
            rw [LGTMHandler, if_neg (by simp [h1]), if_neg (by simp [h2]), hd]
          rw [hrun]
          refine ⟨?_, ?_, fun _ => ⟨rfl, rfl, ⟨c, rfl⟩⟩⟩
          · constructor
            · rintro (h | h | h | ⟨s, e, hs, he⟩)
              · exact absurd h1 h
              · exact absurd h2 h
              · exact Option.noConfusion h
              · injection hs with hs
                subst hs
                rw [hd] at he
                exact Except.noConfusion he
            · intro h
              exact absurd h (by norm_num)
          · intro h
            exact absurd h (by norm_num)
    · have hrun : LGTMHandler decode contentType method body
          = ⟨400, "error occurs:" ++ "invalid request body", none⟩ := by
        rw [LGTMHandler.eq_def, if_neg (by simp [h1]), if_pos (by simp [h2])]
      rw [hrun]
      exact ⟨by simp [h2], fun _ => ⟨rfl, ⟨"invalid request body", rfl⟩⟩, fun h => absurd rfl h⟩
  · have hrun : LGTMHandler decode contentType method body
        = ⟨400, "error occurs:" ++ "invalid content type", none⟩ := by
      rw [LGTMHandler.eq_def, if_pos (by simp [h1])]
    rw [hrun]
    exact ⟨by simp [h1], fun _ => ⟨rfl, ⟨"invalid content type", rfl⟩⟩, fun h => absurd rfl h⟩

/-- C8 witness: a POST with JSON content type whose body does not decode. -/
theorem LGTMHandler_validation_witness :
    (("application/json" ≠ "application/json" ∨ "POST" ≠ "POST" ∨
        (some "not json" : Option String) = none ∨
        (∃ s e, (some "not json" : Option String) = some s
          ∧ rejectAllDecoder s = Except.error e))
      ↔ (LGTMHandler rejectAllDecoder "application/json" "POST" (some "not json")).status
          = 400) ∧
    ((LGTMHandler rejectAllDecoder "application/json" "POST" (some "not json")).status = 400 →
      (LGTMHandler rejectAllDecoder "application/json" "POST" (some "not json")).spawned
        = none ∧
      ∃ e, (LGTMHandler rejectAllDecoder "application/json" "POST" (some "not json")).respBody
        = "error occurs:" ++ e) ∧
    ((LGTMHandler rejectAllDecoder "application/json" "POST" (some "not json")).status ≠ 400 →
      (LGTMHandler rejectAllDecoder "application/json" "POST" (some "not json")).status = 200 ∧
      (LGTMHandler rejectAllDecoder "application/json" "POST" (some "not json")).respBody
        = "OK" ∧
      ∃ c, (LGTMHandler rejectAllDecoder "application/json" "POST" (some "not json")).spawned
        = some c) :=
  LGTMHandler_validation rejectAllDecoder "application/json" "POST" (some "not json")

theorem rejectCond_bounds (kw : String) (loaded : Option (List String)) (c : Comment)
    (n : Nat) (h : rejectCond kw loaded c n) : 1 ≤ n ∧ n ≤ 4 := by
  match n with
  | 0 => exact absurd h (by simp [rejectCond])
  | 1 => exact ⟨by omega, by omega⟩
  | 2 => exact ⟨by omega, by omega⟩
  | 3 => exact ⟨by omega, by omega⟩
  | 4 => exact ⟨by omega, by omega⟩
  | n + 5 => exact absurd h (by simp [rejectCond])

/-- C9: checkLgtm evaluates its four rejection tests in source order; the
branch it returns through is exactly the least failing test, that return
carries no error, updates no counter, attempts no merge (and when the first
test already fails, the reviewer list is never loaded); the reviewer load
happens exactly when the first test passes. -/
theorem checkLgtm_four_checks_in_order (kw : String) (loaded : Option (List String))
    (f : TxFail) (t : Int) (st : Store) (c : Comment) :
    (∀ n : Nat, (checkLgtm kw loaded f t st c).fired = some n ↔
      (rejectCond kw loaded c n ∧ ∀ j, 1 ≤ j → j < n → ¬ rejectCond kw loaded c j)) ∧
    ((checkLgtm kw loaded f t st c).fired ≠ none →
      (checkLgtm kw loaded f t st c).counterCalled = false ∧
      (checkLgtm kw loaded f t st c).store = st ∧
      (checkLgtm kw loaded f t st c).merge = none) ∧
    (checkLgtm kw loaded f t st c).retErr = none ∧
    (checkLgtm kw loaded f t st c).reviewersLoaded = decide (c.objectKind = ObjectNote) := by
  by_cases g1 : c.objectKind ≠ ObjectNote
  · have hrun : checkLgtm kw loaded f t st c = ⟨some 1, false, false, none, none, none, st⟩ := by
      rw [checkLgtm, if_pos g1]
    rw [hrun]
    refine ⟨?_, fun _ => ⟨rfl, rfl, rfl⟩, rfl, (decide_eq_false g1).symm⟩
    intro n
    constructor
    · intro h
      injection h with h
      subst h
      exact ⟨g1, fun j hj1 hj2 => False.elim (by omega)⟩
    · rintro ⟨hc, hleast⟩
      obtain ⟨hb1, hb2⟩ := rejectCond_bounds kw loaded c n hc
      by_cases hn : n = 1
      · subst hn
        rfl
      · exact absurd (show rejectCond kw loaded c 1 from g1)
          (hleast 1 (le_refl 1) (by omega))
  · by_cases g2 : checkLoadedReviewers loaded c = false
    · have hrun : checkLgtm kw loaded f t st c
          = ⟨some 2, true, false, none, none, none, st⟩ := by
        rw [checkLgtm, if_neg g1, if_pos g2]
      rw [hrun]
      refine ⟨?_, fun _ => ⟨rfl, rfl, rfl⟩, rfl, (decide_eq_true (not_not.mp g1)).symm⟩
      intro n
      constructor
      · intro h
        injection h with h
        subst h
        refine ⟨g2, fun j hj1 hj2 => ?_⟩
        have hj : j = 1 := by omega
        subst hj
        exact g1
      · rintro ⟨hc, hleast⟩
        obtain ⟨hb1, hb2⟩ := rejectCond_bounds kw loaded c n hc
        interval_cases n
        · exact absurd (show rejectCond kw loaded c 1 from hc) g1
        · rfl
        · exact absurd (show rejectCond kw loaded c 2 from g2)
            (hleast 2 (by omega) (by omega))
        · exact absurd (show rejectCond kw loaded c 2 from g2)
            (hleast 2 (by omega) (by omega))
    · by_cases g3 : c.noteableType ≠ NoteableTypeMergeRequest
      · have hrun : checkLgtm kw loaded f t st c
            = ⟨some 3, true, false, none, none, none, st⟩ := by
          rw [checkLgtm, if_neg g1, if_neg g2, if_pos g3]
        rw [hrun]
        refine ⟨?_, fun _ => ⟨rfl, rfl, rfl⟩, rfl, (decide_eq_true (not_not.mp g1)).symm⟩
        intro n
        constructor
        · intro h
          injection h with h
          subst h
          refine ⟨g3, fun j hj1 hj2 => ?_⟩
          have hj : j = 1 ∨ j = 2 := by omega
          rcases hj with hj | hj <;> subst hj
          · exact g1
          · exact g2
        · rintro ⟨hc, hleast⟩
          obtain ⟨hb1, hb2⟩ := rejectCond_bounds kw loaded c n hc
          interval_cases n
          · exact absurd (show rejectCond kw loaded c 1 from hc) g1
          · exact absurd (show rejectCond kw loaded c 2 from hc) g2
          · rfl
          · exact absurd (show rejectCond kw loaded c 3 from g3)
              (hleast 3 (by omega) (by omega))
      · by_cases g4 : noteMatches kw c.note = false
        · have hrun : checkLgtm kw loaded f t st c
              = ⟨some 4, true, false, none, none, none, st⟩ := by
            rw [checkLgtm, if_neg g1, if_neg g2, if_neg g3, if_pos g4]
          rw [hrun]
          refine ⟨?_, fun _ => ⟨rfl, rfl, rfl⟩, rfl, (decide_eq_true (not_not.mp g1)).symm⟩
          intro n
          constructor
          · intro h
            injection h with h
            subst h
            refine ⟨g4, fun j hj1 hj2 => ?_⟩
            have hj : j = 1 ∨ j = 2 ∨ j = 3 := by omega
            rcases hj with hj | hj | hj <;> subst hj
            · exact g1
            · exact g2
            · exact g3
          · rintro ⟨hc, hleast⟩
            obtain ⟨hb1, hb2⟩ := rejectCond_bounds kw loaded c n hc
            interval_cases n
            · exact absurd (show rejectCond kw loaded c 1 from hc) g1
            · exact absurd (show rejectCond kw loaded c 2 from hc) g2
            · exact absurd (show rejectCond kw loaded c 3 from hc) g3
            · rfl
        · have hE : (checkLgtm kw loaded f t st c).fired = none ∧
              (checkLgtm kw loaded f t st c).retErr = none ∧
              (checkLgtm kw loaded f t st c).reviewersLoaded = true := by
            rw [checkLgtm, if_neg g1, if_neg g2, if_neg g3, if_neg g4]
            cases herr : (checkLGTMCount f t c.iid st).err with
            | some e => exact ⟨rfl, rfl, rfl⟩
            | none =>
              by_cases g5 : (checkLGTMCount f t c.iid st).canMerge = true
                  ∧ c.mergeStatus = StatusCanbeMerged
              · rw [if_pos g5]
                exact ⟨rfl, rfl, rfl⟩
              · rw [if_neg g5]
                exact ⟨rfl, rfl, rfl⟩
          refine ⟨?_, fun h => absurd hE.1 h, hE.2.1, ?_⟩
          · intro n
            constructor
            · intro h
              rw [hE.1] at h
              exact Option.noConfusion h
            · rintro ⟨hc, hleast⟩
              obtain ⟨hb1, hb2⟩ := rejectCond_bounds kw loaded c n hc
              interval_cases n
              · exact absurd (show rejectCond kw loaded c 1 from hc) g1
              · exact absurd (show rejectCond kw loaded c 2 from hc) g2
              · exact absurd (show rejectCond kw loaded c 3 from hc) g3
              · exact absurd (show rejectCond kw loaded c 4 from hc) g4
          · rw [hE.2.2, (decide_eq_true (not_not.mp g1))]

/-- C9 witness: an event of kind "issue" fires the first rejection. -/
theorem checkLgtm_four_checks_in_order_witness :
    (checkLgtm NoteLGTM none noFail 2 emptyStore
      ⟨"issue", "alice", 7, "LGTM", "Issue", 42, "can_be_merged", "true"⟩).fired
      = some 1 :=
  ((checkLgtm_four_checks_in_order NoteLGTM none noFail 2 emptyStore
      ⟨"issue", "alice", 7, "LGTM", "Issue", 42, "can_be_merged", "true"⟩).1 1).mpr
    ⟨by show ("issue" : String) ≠ ObjectNote; decide,
     fun j hj1 hj2 => False.elim (by omega)⟩
